import Mathlib

/-!
Shallow embedding of `src/cloudlamma.py` (class `OllamaSetup`) together with
proofs of the specification claims about it.

Modelling conventions:
* Python floats in the retry policy are modelled as rationals; the sleep
  durations recorded in a trace are the exact values `delay * backoff ^ i`.
* Side effects (sleeps, HTTP requests, printed lines, spawned processes)
  are modelled as explicit traces or counters carried in the return value.
* Exceptions are modelled as `Except` values; the exception classes that the
  code distinguishes become constructors of `PyError`.
* Strings handled character by character in the source are modelled as
  `List Char`.
-/

namespace Cloudlamma

/-- Exception classes distinguished by `retry_operation` (cloudlamma.py:158).
`requestException` stands for `requests.exceptions.RequestException` and
`calledProcessError` for `subprocess.CalledProcessError` (the two classes the
`except` clause catches); `otherError` is any other exception class;
`allRetriesFailed` is the bare `Exception` raised at line 169. -/
inductive PyError where
  | requestException (tag : Nat)
  | calledProcessError (returncode : Int)
  | otherError (tag : Nat)
  | allRetriesFailed
  deriving DecidableEq, Repr

/-- Whether the `except (requests.exceptions.RequestException,
subprocess.CalledProcessError)` clause at cloudlamma.py:158 catches the
exception. -/
def isRecoverable : PyError → Bool
  | PyError.requestException _ => true
  | PyError.calledProcessError _ => true
  | PyError.otherError _ => false
  | PyError.allRetriesFailed => false

/-- Config.max_retries (cloudlamma.py:42). -/
def configMaxRetries : Nat := 3

/-- Config.retry_delay (cloudlamma.py:43). -/
def configRetryDelay : ℚ := 1

/-- Config.retry_backoff (cloudlamma.py:44). -/
def configRetryBackoff : ℚ := 2

/-- Python `x or default` for an optional integer argument: `None` and `0`
are falsy and replaced by the default (cloudlamma.py:151). -/
def orDefaultNat : Option Nat → Nat → Nat
  | none, d => d
  | some 0, d => d
  | some (n + 1), _ => n + 1

/-- Python `x or default` for an optional float argument: `None` and `0.0`
are falsy and replaced by the default (cloudlamma.py:152-153). -/
def orDefaultQ : Option ℚ → ℚ → ℚ
  | none, d => d
  | some q, d => if q = 0 then d else q

/-- Observable outcome of one call to `retry_operation`: the returned value
or propagated exception, the number of invocations of the wrapped operation,
and the list of back-off sleep durations in the order they were performed. -/
structure RetryResult (α : Type) where
  result : Except PyError α
  invocations : Nat
  sleeps : List ℚ
  deriving Repr

/-- The `for attempt in range(max_retries)` loop of `retry_operation`
(cloudlamma.py:155-169).  `op i` is the outcome of the `i`-th invocation of
the wrapped operation (zero-based).  `fuel` is the number of loop iterations
left; the top-level call supplies `fuel = m` at `attempt = 0`.  Exhausted
fuel corresponds to falling out of the loop to `raise Exception(...)` at
line 169 (reachable only when `range(max_retries)` is empty). -/
def retryFrom {α : Type} (op : Nat → Except PyError α) (m : Nat) (d b : ℚ) :
    Nat → Nat → RetryResult α
  | _, 0 => ⟨Except.error PyError.allRetriesFailed, 0, []⟩
  | attempt, fuel + 1 =>
    match op attempt with
    | Except.ok v => ⟨Except.ok v, 1, []⟩
    | Except.error e =>
      if isRecoverable e then
        if attempt = m - 1 then ⟨Except.error e, 1, []⟩
        else
          match retryFrom op m d b (attempt + 1) fuel with
          | ⟨r, n, s⟩ => ⟨r, n + 1, d * b ^ attempt :: s⟩
      else ⟨Except.error e, 1, []⟩

/-- OllamaSetup.retry_operation (cloudlamma.py:149-169).  The three optional
arguments are defaulted with Python `or` against the `Config` values. -/
def retry_operation {α : Type} (op : Nat → Except PyError α)
    (maxRetriesArg : Option Nat) (delayArg : Option ℚ) (backoffArg : Option ℚ) :
    RetryResult α :=
  retryFrom op (orDefaultNat maxRetriesArg configMaxRetries)
    (orDefaultQ delayArg configRetryDelay)
    (orDefaultQ backoffArg configRetryBackoff)
    0 (orDefaultNat maxRetriesArg configMaxRetries)

/-- The `dangerous_chars` list of `validate_model_name` (cloudlamma.py:129):
semicolon, ampersand, pipe, backtick, dollar, parentheses, angle brackets,
double quote, single quote, backslash, newline, carriage return. -/
def dangerousChars : List Char :=
  [';', '&', '|', Char.ofNat 96, Char.ofNat 36, '(', ')', '<', '>',
   Char.ofNat 34, Char.ofNat 39, Char.ofNat 92, Char.ofNat 10, Char.ofNat 13]

/-- Membership in the regex character class `[a-zA-Z0-9._:-]`
(cloudlamma.py:134). -/
def inModelClass (c : Char) : Bool :=
  (decide ('a' ≤ c) && decide (c ≤ 'z')) ||
  (decide ('A' ≤ c) && decide (c ≤ 'Z')) ||
  (decide ('0' ≤ c) && decide (c ≤ '9')) ||
  c == '.' || c == '_' || c == ':' || c == '-'

/-- One-or-more repetition of the class over the whole list: the `[...]+`
part of the pattern matched against the full remaining input. -/
def classPlusMatch (l : List Char) : Bool :=
  !l.isEmpty && l.all inModelClass

/-- Python `re.match(r^[a-zA-Z0-9._:-]+$, s)` succeeding (cloudlamma.py:134).
`re.match` anchors at the start, and `$` matches at the end of the string or
just before a single trailing newline, so the pattern matches iff the whole
string is a nonempty class run, or everything before one trailing newline is. -/
def regexMatchModelName (l : List Char) : Bool :=
  classPlusMatch l ||
  ((l.getLast? == some (Char.ofNat 10)) && classPlusMatch l.dropLast)

/-- Config.max_model_name_length (cloudlamma.py:51). -/
def maxModelNameLength : Nat := 100

/-- OllamaSetup.validate_model_name (cloudlamma.py:123-141), on the string's
characters.  The `isinstance(model_name, str)` test is vacuous in the model
since the argument is a character list.  The dangerous-character test
iterates over `dangerous_chars` and asks whether each occurs in the name,
exactly as `any(char in model_name for char in dangerous_chars)` does. -/
def validate_model_name (l : List Char) : Bool :=
  if l.isEmpty then false
  else if dangerousChars.any (fun c => decide (c ∈ l)) then false
  else if !regexMatchModelName l then false
  else if maxModelNameLength < l.length then false
  else true

/-- ASCII whitespace stripped by Python `str.strip()` (cloudlamma.py:147):
space, tab, newline, carriage return, vertical tab, form feed.  (`strip`
also removes Unicode whitespace, which no validated name can contain.) -/
def pySpaceChars : List Char :=
  [' ', Char.ofNat 9, Char.ofNat 10, Char.ofNat 13, Char.ofNat 11, Char.ofNat 12]

/-- Whether `str.strip()` removes the character. -/
def isPySpace (c : Char) : Bool :=
  decide (c ∈ pySpaceChars)

/-- Python `str.strip()`: drop whitespace from both ends. -/
def pyStrip (l : List Char) : List Char :=
  ((l.dropWhile isPySpace).reverse.dropWhile isPySpace).reverse

/-- OllamaSetup.sanitize_model_name (cloudlamma.py:143-147): raise
`ValueError` (modelled as `Except.error ()`; the message text is not
modelled) when validation fails, else return `model_name.strip()`. -/
def sanitize_model_name (l : List Char) : Except Unit (List Char) :=
  if validate_model_name l then Except.ok (pyStrip l) else Except.error ()

/-- Observable outcome of `is_ollama_responsive`: the returned boolean and
the number of HTTP GET requests that were issued. -/
structure ResponsiveResult where
  responsive : Bool
  httpCalls : Nat
  deriving DecidableEq, Repr

/-- The body of `check_health` (cloudlamma.py:315-317) at the `i`-th
invocation: `http i` is the outcome of the `i`-th `requests.get` call,
either an HTTP status code or a raised exception; on success the closure
returns `response.status_code == 200`. -/
def check_health (http : Nat → Except PyError Nat) (i : Nat) : Except PyError Bool :=
  (http i).map (fun status => status == 200)

/-- OllamaSetup.is_ollama_responsive (cloudlamma.py:309-321).  `running` is
the result of the `is_ollama_running` port check (cloudlamma.py:300-307,
`lsof` exit code zero); when it is false the function returns early and no
HTTP request is made.  Otherwise `check_health` is wrapped in
`retry_operation(check_health, max_retries=2, delay=0.5)` and any escaping
exception is caught by `except Exception: return False`. -/
def is_ollama_responsive (running : Bool) (http : Nat → Except PyError Nat) :
    ResponsiveResult :=
  if running then
    match retry_operation (check_health http) (some 2) (some (1 / 2 : ℚ)) none with
    | ⟨Except.ok b, n, _⟩ => ⟨b, n⟩
    | ⟨Except.error _, n, _⟩ => ⟨false, n⟩
  else ⟨false, 0⟩

/-- Config.ollama_startup_wait (cloudlamma.py:47). -/
def ollama_startup_wait : Nat := 30

/-- Externally observable actions of `start_ollama`, in order. -/
inductive OllamaAction where
  | message (text : String) (level : String)
  | spawnServe
  | pollResponsive (i : Nat)
  | sleepSec (n : Nat)
  deriving DecidableEq, Repr

/-- The `for attempt in range(config.ollama_startup_wait)` loop of
`start_ollama` (cloudlamma.py:335-341): poll `is_ollama_responsive` (the
`i`-th poll), return on the first responsive poll, otherwise sleep one
second and continue; after the window, warn.  `responsive i` is the result
of the `i`-th poll. -/
def startOllamaPollLoop (responsive : Nat → Bool) : Nat → Nat → List OllamaAction
  | _, 0 =>
    [OllamaAction.message ("Ollama started but may not be fully responsive yet.") ("warn")]
  | i, fuel + 1 =>
    OllamaAction.pollResponsive i ::
      (if responsive i then [OllamaAction.message ("Ollama is now ready.") ("info")]
       else OllamaAction.sleepSec 1 :: startOllamaPollLoop responsive (i + 1) fuel)

/-- OllamaSetup.start_ollama (cloudlamma.py:323-341) as the trace of its
observable actions.  `running` is the result of the initial
`is_ollama_running` check; when true the body is skipped entirely. -/
def start_ollama (running : Bool) (responsive : Nat → Bool) : List OllamaAction :=
  if running then []
  else
    OllamaAction.message ("Starting Ollama on 0.0.0.0...") ("info") ::
    OllamaAction.spawnServe ::
    startOllamaPollLoop responsive 0 ollama_startup_wait

/-- Literal `https://` prefix of the tunnel-URL pattern (cloudlamma.py:372). -/
def httpsLit : List Char := ("https://").toList

/-- Literal `.trycloudflare.com` suffix of the tunnel-URL pattern
(cloudlamma.py:372); the two dots are escaped in the regex. -/
def suffixLit : List Char := (".trycloudflare.com").toList

/-- The lazy middle part `.*?` of the pattern: the shortest run of
non-newline characters after which the literal suffix matches.  Returns the
consumed middle characters. -/
def lazyMid : List Char → Option (List Char)
  | [] => if suffixLit.isPrefixOf ([] : List Char) then some [] else none
  | c :: t =>
    if suffixLit.isPrefixOf (c :: t) then some []
    else if c = Char.ofNat 10 then none
    else (lazyMid t).map (fun mid => c :: mid)

/-- Attempt to match the whole pattern at the start of `s`; on success
return `match.group(0)`, the full matched text. -/
def tryMatchAt (s : List Char) : Option (List Char) :=
  if httpsLit.isPrefixOf s then
    (lazyMid (s.drop httpsLit.length)).map (fun mid => httpsLit ++ mid ++ suffixLit)
  else none

/-- Python `re.search` over the line (cloudlamma.py:372): try the pattern at
each start position from left to right and return the first match. -/
def reSearchTunnelUrl : List Char → Option (List Char)
  | [] => tryMatchAt []
  | c :: t =>
    match tryMatchAt (c :: t) with
    | some u => some u
    | none => reSearchTunnelUrl t

/-- Config.tunnel_url_wait (cloudlamma.py:48). -/
def tunnel_url_wait : Nat := 30

/-- Supervisor outcome reported after the URL wait loop of
`start_temp_tunnel`: `Active` with the discovered URL, or `Stopped` with the
failure message printed at cloudlamma.py:390. -/
inductive TunnelState where
  | Active (url : List Char)
  | Stopped (failure : String)
  deriving DecidableEq, Repr

/-- The `for _ in range(config.tunnel_url_wait)` loop of `start_temp_tunnel`
(cloudlamma.py:361-376) under the assumption that the spawned process stays
alive (`process.poll()` is `None`) and `readline` yields line `raw i` on the
`i`-th iteration.  Each line is stripped; empty lines are skipped by the
`if line:` guard; nonempty lines are echoed when `verbose` (the echo list is
the second component) and searched for the URL pattern regardless of
`verbose`; the first match ends the loop.  Returns the discovered URL, if
any, and the echoed lines. -/
def awaitTunnelUrl (verbose : Bool) (raw : Nat → List Char) :
    Nat → Nat → Option (List Char) × List (List Char)
  | _, 0 => (none, [])
  | i, fuel + 1 =>
    if (pyStrip (raw i)).isEmpty then awaitTunnelUrl verbose raw (i + 1) fuel
    else
      match reSearchTunnelUrl (pyStrip (raw i)) with
      | some u => (some u, if verbose then [pyStrip (raw i)] else [])
      | none =>
        match awaitTunnelUrl verbose raw (i + 1) fuel with
        | (r, echoed) => (r, (if verbose then [pyStrip (raw i)] else []) ++ echoed)

/-- OllamaSetup.start_temp_tunnel (cloudlamma.py:343-396), reduced to the
URL-discovery part the claims are about: run the wait loop and report
`Active` with the URL (cloudlamma.py:378-380) or `Stopped` with the
timeout failure (cloudlamma.py:390).  Creation and guaranteed removal of
the temporary config file and the post-URL idle wait are not modelled. -/
def start_temp_tunnel (verbose : Bool) (raw : Nat → List Char) :
    TunnelState × List (List Char) :=
  match awaitTunnelUrl verbose raw 0 tunnel_url_wait with
  | (some u, echoed) => (TunnelState.Active u, echoed)
  | (none, echoed) => (TunnelState.Stopped ("Failed to obtain tunnel URL"), echoed)

/-- The literal repeating progress line recognised by `pull_model`
(cloudlamma.py:501). -/
def manifestLine : List Char := ("pulling manifest").toList

/-- Indicator text `Pulling manifest` followed by `n` dots
(cloudlamma.py:504,506). -/
def indicatorText (n : Nat) : List Char :=
  ("Pulling manifest").toList ++ List.replicate n '.'

/-- Printed output events of the `pull_model` streaming loop. -/
inductive PullEvent where
  | progress (text : List Char)
  | newline
  | outLine (text : List Char)
  deriving DecidableEq, Repr

/-- The `for line in process.stdout` loop of `pull_model`
(cloudlamma.py:493-519) including the trailing `if manifest_count > 0:
print()`.  `progress t` is a `print(t, end=CR)` indicator update, `newline`
a bare `print()` terminating the indicator line, `outLine t` a normal
`print(t)`.  State: `lastMessage` is `last_message`, `mc` is
`manifest_count`. -/
def pullLoop : List (List Char) → List Char → Nat → List PullEvent
  | [], _, mc => if 0 < mc then [PullEvent.newline] else []
  | l :: rest, lastMessage, mc =>
    if pyStrip l = manifestLine then
      (if mc + 1 = 1 then [PullEvent.progress (indicatorText (min (mc + 1) 3))]
       else if (mc + 1) % 5 = 0 then
         [PullEvent.progress (indicatorText (min ((mc + 1) / 5) 10))]
       else []) ++ pullLoop rest lastMessage (mc + 1)
    else if pyStrip l ≠ lastMessage ∧ pyStrip l ≠ [] then
      (if 0 < mc then [PullEvent.newline] else []) ++
      PullEvent.outLine (pyStrip l) :: pullLoop rest (pyStrip l) 0
    else pullLoop rest lastMessage mc

/-- The printed output of `pull_model` for a given stream of stdout lines:
the loop starts with `last_message = ""` and `manifest_count = 0`
(cloudlamma.py:494-495). -/
def pull_model_output (lines : List (List Char)) : List PullEvent :=
  pullLoop lines [] 0

/-- The non-indicator lines printed by the loop: the texts of the plain
`print(line)` calls, indicator updates and bare newlines excluded. -/
def printedOutLines (evs : List PullEvent) : List (List Char) :=
  evs.filterMap (fun e =>
    match e with
    | PullEvent.outLine t => some t
    | _ => none)

/-- Config.ollama_port (cloudlamma.py:30). -/
def ollama_port : Nat := 11434

/-- The four lines written sequentially to `config.yml` by
`_setup_cloudflared_config` (cloudlamma.py:292-296), in order. -/
def cloudflaredConfigLines : List (List Char) :=
  [("tunnel: ollama-tunnel").toList ++ [Char.ofNat 10],
   ("credentials-file: ~/.cloudflared/ollama-tunnel.json").toList ++ [Char.ofNat 10],
   ("ingress:").toList ++ [Char.ofNat 10],
   ("  - service: http://localhost:").toList ++ (toString ollama_port).toList ++ [Char.ofNat 10]]

/-- The complete config.yml content produced by a fully successful run. -/
def fullCloudflaredConfig : List Char := cloudflaredConfigLines.flatten

/-- State of `~/.cloudflared/config.yml` after the write step. -/
inductive ConfigFileState where
  | absent
  | content (data : List Char)
  deriving DecidableEq, Repr

/-- The file left behind by the `with open(config_path, "w")` block of
`_setup_cloudflared_config` (cloudlamma.py:292-296) when execution stops
after `writesCompleted` of the four sequential `f.write` calls (a failure
between writes, or 4 on full success).  Opening with mode "w" truncates, and
the context manager closes (hence flushes) the file on the way out, so the
file exists with exactly the concatenation of the completed writes. -/
def setup_cloudflared_config_file (writesCompleted : Nat) : ConfigFileState :=
  ConfigFileState.content ((cloudflaredConfigLines.take writesCompleted).flatten)

/-! Helper lemmas. -/

theorem mapShift {β : Type} (g : Nat → β) (k : Nat) :
    (List.range (k + 1)).map g = g 0 :: (List.range k).map (fun i => g (i + 1)) := by
  rw [List.range_succ_eq_map, List.map_cons, List.map_map]
  rfl

theorem orDefaultNat_pos (arg : Option Nat) (d : Nat) (hd : 0 < d) :
    0 < orDefaultNat arg d := by
  cases arg with
  | none => exact hd
  | some n =>
    cases n with
    | zero => exact hd
    | succ k => exact Nat.succ_pos k

theorem retryFrom_step_ok {α : Type} (op : Nat → Except PyError α) (m : Nat)
    (d b : ℚ) (attempt fuel : Nat) (v : α) (hop : op attempt = Except.ok v) :
    retryFrom op m d b attempt (fuel + 1) = ⟨Except.ok v, 1, []⟩ := by
  simp [retryFrom, hop]

theorem retryFrom_step_last {α : Type} (op : Nat → Except PyError α) (m : Nat)
    (d b : ℚ) (attempt fuel : Nat) (e : PyError)
    (hop : op attempt = Except.error e) (hr : isRecoverable e = true)
    (hl : attempt = m - 1) :
    retryFrom op m d b attempt (fuel + 1) = ⟨Except.error e, 1, []⟩ := by
  subst hl
  simp [retryFrom, hop, hr]

theorem retryFrom_step_retry {α : Type} (op : Nat → Except PyError α) (m : Nat)
    (d b : ℚ) (attempt fuel : Nat) (e : PyError)
    (hop : op attempt = Except.error e) (hr : isRecoverable e = true)
    (hne : ¬ (attempt = m - 1)) :
    retryFrom op m d b attempt (fuel + 1) =
      ⟨(retryFrom op m d b (attempt + 1) fuel).result,
       (retryFrom op m d b (attempt + 1) fuel).invocations + 1,
       d * b ^ attempt :: (retryFrom op m d b (attempt + 1) fuel).sleeps⟩ := by
  simp [retryFrom, hop, hr, hne]

theorem retryFrom_step_unrec {α : Type} (op : Nat → Except PyError α) (m : Nat)
    (d b : ℚ) (attempt fuel : Nat) (e : PyError)
    (hop : op attempt = Except.error e) (hr : isRecoverable e = false) :
    retryFrom op m d b attempt (fuel + 1) = ⟨Except.error e, 1, []⟩ := by
  simp [retryFrom, hop, hr]

theorem retryFrom_ok {α : Type} (op : Nat → Except PyError α) (m : Nat) (d b : ℚ)
    (v : α) :
    ∀ (k attempt fuel : Nat), attempt + fuel = m → k < fuel →
      (∀ i, i < k → ∃ e, op (attempt + i) = Except.error e ∧ isRecoverable e = true) →
      op (attempt + k) = Except.ok v →
      retryFrom op m d b attempt fuel =
        ⟨Except.ok v, k + 1, (List.range k).map (fun i => d * b ^ (attempt + i))⟩ := by
  intro k
  induction k with
  | zero =>
    intro attempt fuel hinv hk hfail hok
    obtain ⟨f, rfl⟩ : ∃ f, fuel = f + 1 := ⟨fuel - 1, by omega⟩
    rw [Nat.add_zero] at hok
    simp [retryFrom, hok]
  | succ k ih =>
    intro attempt fuel hinv hk hfail hok
    obtain ⟨f, rfl⟩ : ∃ f, fuel = f + 1 := ⟨fuel - 1, by omega⟩
    obtain ⟨e, he, hrec⟩ := hfail 0 (Nat.succ_pos k)
    rw [Nat.add_zero] at he
    have hne : ¬ (attempt = m - 1) := by omega
    have hrecur := ih (attempt + 1) f (by omega) (by omega)
      (fun i hi => by
        obtain ⟨e', he', hr'⟩ := hfail (i + 1) (by omega)
        refine ⟨e', ?_, hr'⟩
        have harith : attempt + 1 + i = attempt + (i + 1) := by omega
        rw [harith]
        exact he')
      (by
        have harith : attempt + 1 + k = attempt + (k + 1) := by omega
        rw [harith]
        exact hok)
    simp only [retryFrom, he, hrec, if_true, if_neg hne, hrecur]
    refine congrArg (RetryResult.mk (Except.ok v) (k + 1 + 1)) ?_
    rw [mapShift (fun i => d * b ^ (attempt + i)) k]
    refine congrArg (List.cons (d * b ^ (attempt + 0))) ?_
    apply List.map_congr_left
    intro i _
    have harith : attempt + 1 + i = attempt + (i + 1) := by omega
    rw [harith]

theorem retryFrom_allFail {α : Type} (op : Nat → Except PyError α) (m : Nat)
    (d b : ℚ) (errAt : Nat → PyError)
    (hfail : ∀ i, op i = Except.error (errAt i))
    (hrec : ∀ i, isRecoverable (errAt i) = true) :
    ∀ (fuel attempt : Nat), attempt + fuel = m → 0 < fuel →
      retryFrom op m d b attempt fuel =
        ⟨Except.error (errAt (m - 1)), fuel,
         (List.range (fuel - 1)).map (fun i => d * b ^ (attempt + i))⟩ := by
  intro fuel
  induction fuel with
  | zero => intro attempt _ h; omega
  | succ f ih =>
    intro attempt hinv _
    cases f with
    | zero =>
      have hlast : attempt = m - 1 := by omega
      rw [retryFrom_step_last op m d b attempt 0 (errAt attempt) (hfail attempt)
        (hrec attempt) hlast, hlast]
      simp
    | succ g =>
      have hne : ¬ (attempt = m - 1) := by omega
      have hrecur := ih (attempt + 1) (by omega) (Nat.succ_pos g)
      rw [retryFrom_step_retry op m d b attempt (g + 1) (errAt attempt)
        (hfail attempt) (hrec attempt) hne, hrecur]
      simp only []
      refine congrArg (RetryResult.mk (Except.error (errAt (m - 1))) (g + 1 + 1)) ?_
      have hred : g + 1 + 1 - 1 = g + 1 := rfl
      have hred2 : g + 1 - 1 = g := rfl
      rw [hred, hred2, mapShift (fun i => d * b ^ (attempt + i)) g]
      refine congrArg (List.cons (d * b ^ (attempt + 0))) ?_
      apply List.map_congr_left
      intro i _
      have harith : attempt + 1 + i = attempt + (i + 1) := by omega
      rw [harith]

theorem retryFrom_unrec {α : Type} (op : Nat → Except PyError α) (m : Nat)
    (d b : ℚ) (e : PyError) :
    ∀ (k attempt fuel : Nat), attempt + fuel = m → k < fuel →
      (∀ i, i < k → ∃ e', op (attempt + i) = Except.error e' ∧ isRecoverable e' = true) →
      op (attempt + k) = Except.error e → isRecoverable e = false →
      retryFrom op m d b attempt fuel =
        ⟨Except.error e, k + 1, (List.range k).map (fun i => d * b ^ (attempt + i))⟩ := by
  intro k
  induction k with
  | zero =>
    intro attempt fuel hinv hk hfail hbad hunrec
    obtain ⟨f, rfl⟩ : ∃ f, fuel = f + 1 := ⟨fuel - 1, by omega⟩
    rw [Nat.add_zero] at hbad
    simp [retryFrom, hbad, hunrec]
  | succ k ih =>
    intro attempt fuel hinv hk hfail hbad hunrec
    obtain ⟨f, rfl⟩ : ∃ f, fuel = f + 1 := ⟨fuel - 1, by omega⟩
    obtain ⟨e', he', hr'⟩ := hfail 0 (Nat.succ_pos k)
    rw [Nat.add_zero] at he'
    have hne : ¬ (attempt = m - 1) := by omega
    have hrecur := ih (attempt + 1) f (by omega) (by omega)
      (fun i hi => by
        obtain ⟨e2, he2, hr2⟩ := hfail (i + 1) (by omega)
        refine ⟨e2, ?_, hr2⟩
        have harith : attempt + 1 + i = attempt + (i + 1) := by omega
        rw [harith]
        exact he2)
      (by
        have harith : attempt + 1 + k = attempt + (k + 1) := by omega
        rw [harith]
        exact hbad)
      hunrec
    simp only [retryFrom, he', hr', if_true, if_neg hne, hrecur]
    refine congrArg (RetryResult.mk (Except.error e) (k + 1 + 1)) ?_
    rw [mapShift (fun i => d * b ^ (attempt + i)) k]
    refine congrArg (List.cons (d * b ^ (attempt + 0))) ?_
    apply List.map_congr_left
    intro i _
    have harith : attempt + 1 + i = attempt + (i + 1) := by omega
    rw [harith]

/-! Claim theorems about the retry policy. -/

/-- C1: for every operation that fails with a recoverable error exactly `k`
times and then succeeds, where `k` is below the effective `max_retries`,
`retry_operation` returns the success value after exactly `k + 1`
invocations of the operation and sleeps exactly `k` times, in order, for
`delay * backoff ^ i` seconds with zero-based attempt index `i = 0 .. k-1`. -/
theorem retry_operation_success_after_k_failures {α : Type}
    (op : Nat → Except PyError α) (v : α) (k : Nat)
    (mArg : Option Nat) (dArg bArg : Option ℚ)
    (hk : k < orDefaultNat mArg configMaxRetries)
    (hfail : ∀ i, i < k → ∃ e, op i = Except.error e ∧ isRecoverable e = true)
    (hok : op k = Except.ok v) :
    retry_operation op mArg dArg bArg =
      ⟨Except.ok v, k + 1,
       (List.range k).map (fun i =>
         orDefaultQ dArg configRetryDelay * orDefaultQ bArg configRetryBackoff ^ i)⟩ := by
  unfold retry_operation
  have h := retryFrom_ok op (orDefaultNat mArg configMaxRetries)
    (orDefaultQ dArg configRetryDelay) (orDefaultQ bArg configRetryBackoff) v
    k 0 (orDefaultNat mArg configMaxRetries) (by omega) hk
    (by simpa using hfail) (by simpa using hok)
  simpa using h

theorem retry_operation_success_witness :
    retry_operation
      (fun i => if i = 0 then Except.error (PyError.requestException 7) else Except.ok 42)
      none none none = ⟨Except.ok 42, 2, [(1 : ℚ)]⟩ := by
  have h := retry_operation_success_after_k_failures
    (fun i => if i = 0 then Except.error (PyError.requestException 7) else Except.ok 42)
    42 1 none none none (by decide)
    (by
      intro i hi
      have hz : i = 0 := by omega
      subst hz
      exact ⟨PyError.requestException 7, rfl, rfl⟩)
    rfl
  rw [h]
  norm_num [List.range_succ, orDefaultQ, configRetryDelay, configRetryBackoff]

/-- C2: for every operation that fails with a recoverable error on every
invocation, `retry_operation` invokes the operation exactly the effective
`max_retries` times and then re-raises the error produced by the final
invocation unchanged. -/
theorem retry_operation_allfail_raises_final {α : Type}
    (op : Nat → Except PyError α) (errAt : Nat → PyError)
    (mArg : Option Nat) (dArg bArg : Option ℚ)
    (hfail : ∀ i, op i = Except.error (errAt i))
    (hrec : ∀ i, isRecoverable (errAt i) = true) :
    retry_operation op mArg dArg bArg =
      ⟨Except.error (errAt (orDefaultNat mArg configMaxRetries - 1)),
       orDefaultNat mArg configMaxRetries,
       (List.range (orDefaultNat mArg configMaxRetries - 1)).map (fun i =>
         orDefaultQ dArg configRetryDelay * orDefaultQ bArg configRetryBackoff ^ i)⟩ := by
  unfold retry_operation
  have hpos : 0 < orDefaultNat mArg configMaxRetries :=
    orDefaultNat_pos mArg configMaxRetries (by decide)
  have h := retryFrom_allFail op (orDefaultNat mArg configMaxRetries)
    (orDefaultQ dArg configRetryDelay) (orDefaultQ bArg configRetryBackoff)
    errAt hfail hrec (orDefaultNat mArg configMaxRetries) 0 (by omega) hpos
  simpa using h

theorem retry_operation_allfail_witness :
    retry_operation
      (fun i => (Except.error (PyError.requestException i) : Except PyError Nat))
      none none none =
      ⟨Except.error (PyError.requestException 2), 3, [(1 : ℚ), 2]⟩ := by
  have h := retry_operation_allfail_raises_final
    (fun i => (Except.error (PyError.requestException i) : Except PyError Nat))
    (fun i => PyError.requestException i) none none none
    (fun _ => rfl) (fun _ => rfl)
  rw [h]
  norm_num [List.range_succ, orDefaultQ, configRetryDelay, configRetryBackoff,
    orDefaultNat, configMaxRetries]

/-- C8: for every operation that raises an error outside the recoverable
classes on some attempt (after any number of recoverable failures before
it), `retry_operation` propagates that error immediately on the attempt
where it occurs: the operation is invoked exactly `k + 1` times and no
back-off sleep is performed for that attempt, regardless of how many
attempts remain. -/
theorem retry_operation_unrecoverable_immediate {α : Type}
    (op : Nat → Except PyError α) (e : PyError) (k : Nat)
    (mArg : Option Nat) (dArg bArg : Option ℚ)
    (hk : k < orDefaultNat mArg configMaxRetries)
    (hbefore : ∀ i, i < k → ∃ e', op i = Except.error e' ∧ isRecoverable e' = true)
    (hbad : op k = Except.error e) (hunrec : isRecoverable e = false) :
    retry_operation op mArg dArg bArg =
      ⟨Except.error e, k + 1,
       (List.range k).map (fun i =>
         orDefaultQ dArg configRetryDelay * orDefaultQ bArg configRetryBackoff ^ i)⟩ := by
  unfold retry_operation
  have h := retryFrom_unrec op (orDefaultNat mArg configMaxRetries)
    (orDefaultQ dArg configRetryDelay) (orDefaultQ bArg configRetryBackoff) e
    k 0 (orDefaultNat mArg configMaxRetries) (by omega) hk
    (by simpa using hbefore) (by simpa using hbad) hunrec
  simpa using h

theorem retry_operation_unrecoverable_witness :
    retry_operation
      (fun _ => (Except.error (PyError.otherError 5) : Except PyError Nat))
      none none none = ⟨Except.error (PyError.otherError 5), 1, []⟩ := by
  have h := retry_operation_unrecoverable_immediate
    (fun _ => (Except.error (PyError.otherError 5) : Except PyError Nat))
    (PyError.otherError 5) 0 none none none (by decide)
    (by intro i hi; omega) rfl rfl
  rw [h]
  norm_num

/-! Validator lemmas. -/

theorem mem_dangerous_not_class : ∀ c ∈ dangerousChars, inModelClass c = false := by
  decide

theorem mem_pySpace_not_class : ∀ c ∈ pySpaceChars, inModelClass c = false := by
  decide

theorem last_mem_of_getLast? {l : List Char} {c : Char} (h : l.getLast? = some c) :
    c ∈ l := by
  obtain ⟨hne, hc⟩ := List.mem_getLast?_eq_getLast (l := l) (x := c)
    (by simpa [Option.mem_def] using h)
  rw [hc]
  exact List.getLast_mem hne

theorem validate_model_name_iff (l : List Char) :
    validate_model_name l = true ↔
      l ≠ [] ∧ (∀ c ∈ l, inModelClass c = true) ∧ l.length ≤ maxModelNameLength := by
  constructor
  · intro h
    unfold validate_model_name at h
    by_cases h1 : l.isEmpty = true
    · rw [if_pos h1] at h
      exact absurd h (by simp)
    rw [if_neg h1] at h
    by_cases h2 : dangerousChars.any (fun c => decide (c ∈ l)) = true
    · rw [if_pos h2] at h
      exact absurd h (by simp)
    rw [if_neg h2] at h
    by_cases h3 : (!regexMatchModelName l) = true
    · rw [if_pos h3] at h
      exact absurd h (by simp)
    rw [if_neg h3] at h
    by_cases h4 : maxModelNameLength < l.length
    · rw [if_pos h4] at h
      exact absurd h (by simp)
    have hre : regexMatchModelName l = true := by
      cases hr : regexMatchModelName l
      · exact absurd (by rw [hr]; rfl) h3
      · rfl
    have hclass : classPlusMatch l = true := by
      unfold regexMatchModelName at hre
      rcases Bool.or_eq_true_iff.mp hre with hc | hc
      · exact hc
      · obtain ⟨hlast, _⟩ := Bool.and_eq_true_iff.mp hc
        have hnl : l.getLast? = some (Char.ofNat 10) := by
          simpa using hlast
        have hmem : Char.ofNat 10 ∈ l := last_mem_of_getLast? hnl
        exact absurd (List.any_eq_true.mpr
          ⟨Char.ofNat 10, by decide, decide_eq_true hmem⟩) h2
    obtain ⟨hne, hall⟩ := Bool.and_eq_true_iff.mp hclass
    refine ⟨by simpa using hne, ?_, by omega⟩
    intro c hc
    exact List.all_eq_true.mp hall c hc
  · rintro ⟨hne, hall, hlen⟩
    have hg1 : ¬ (l.isEmpty = true) := by simpa using hne
    have hany : dangerousChars.any (fun c => decide (c ∈ l)) = false := by
      cases hx : dangerousChars.any (fun c => decide (c ∈ l))
      · rfl
      · obtain ⟨c, hcd, hcl⟩ := List.any_eq_true.mp hx
        have hmem : c ∈ l := of_decide_eq_true hcl
        have hc1 := hall c hmem
        have hc2 := mem_dangerous_not_class c hcd
        rw [hc1] at hc2
        exact absurd hc2 (by simp)
    have hg2 : ¬ (dangerousChars.any (fun c => decide (c ∈ l)) = true) := by
      simp [hany]
    have hclass : classPlusMatch l = true := by
      unfold classPlusMatch
      refine Bool.and_eq_true_iff.mpr ⟨by simpa using hne, ?_⟩
      exact List.all_eq_true.mpr hall
    have hg3 : ¬ ((!regexMatchModelName l) = true) := by
      unfold regexMatchModelName
      rw [hclass]
      simp
    have hg4 : ¬ (maxModelNameLength < l.length) := by omega
    unfold validate_model_name
    rw [if_neg hg1, if_neg hg2, if_neg hg3, if_neg hg4]

/-- C3: `validate_model_name` returns false if the string is empty, contains
a forbidden character, fails the end-to-end character-class match, or is
longer than 100 characters; it returns true for every non-empty string whose
characters all lie in the class `[A-Za-z0-9._:-]` with length at most 100. -/
theorem validate_model_name_spec (l : List Char) :
    (validate_model_name l = true ↔
      l ≠ [] ∧ (∀ c ∈ l, inModelClass c = true) ∧ l.length ≤ maxModelNameLength) ∧
    ((∃ c ∈ l, c ∈ dangerousChars) → validate_model_name l = false) := by
  refine ⟨validate_model_name_iff l, ?_⟩
  rintro ⟨c, hcl, hcd⟩
  cases hv : validate_model_name l
  · rfl
  · have hall := ((validate_model_name_iff l).mp hv).2.1
    have h1 := hall c hcl
    have h2 := mem_dangerous_not_class c hcd
    rw [h1] at h2
    exact absurd h2 (by simp)

theorem validate_model_name_spec_witness :
    validate_model_name (String.toList ("llama3:8b-instruct")) = true ∧
    validate_model_name (String.toList ("a;b")) = false := by
  constructor
  · exact (validate_model_name_spec (String.toList ("llama3:8b-instruct"))).1.mpr
      ⟨by decide, by decide, by decide⟩
  · exact (validate_model_name_spec (String.toList ("a;b"))).2
      ⟨';', by decide, by decide⟩

theorem inClass_not_pySpace (c : Char) (h : inModelClass c = true) :
    isPySpace c = false := by
  cases hs : isPySpace c
  · rfl
  · have hmem : c ∈ pySpaceChars := of_decide_eq_true (by simpa [isPySpace] using hs)
    have hcontra := mem_pySpace_not_class c hmem
    rw [h] at hcontra
    exact absurd hcontra (by simp)

theorem dropWhile_eq_self_of_none {p : Char → Bool} {l : List Char}
    (h : ∀ c ∈ l, p c = false) : l.dropWhile p = l := by
  cases l with
  | nil => rfl
  | cons a t =>
    rw [List.dropWhile_cons]
    simp [h a (List.mem_cons_self a t)]

theorem pyStrip_eq_self {l : List Char} (h : ∀ c ∈ l, isPySpace c = false) :
    pyStrip l = l := by
  unfold pyStrip
  rw [dropWhile_eq_self_of_none h,
    dropWhile_eq_self_of_none (fun c hc => h c (List.mem_reverse.mp hc))]
  exact List.reverse_reverse l

/-- C10: for every string accepted by `validate_model_name`,
`sanitize_model_name` returns the input itself unchanged (the trailing
`strip()` can never modify an accepted string, which contains no
whitespace), hence sanitize is the identity on its success domain and
idempotent; an input containing whitespace is rejected with an error
rather than trimmed and accepted. -/
theorem sanitize_model_name_identity (l : List Char) :
    (validate_model_name l = true → sanitize_model_name l = Except.ok l) ∧
    ((∃ c ∈ l, isPySpace c = true) → sanitize_model_name l = Except.error ()) ∧
    (∀ r, sanitize_model_name l = Except.ok r → sanitize_model_name r = Except.ok r) := by
  have hmain : validate_model_name l = true → sanitize_model_name l = Except.ok l := by
    intro hv
    have hall := ((validate_model_name_iff l).mp hv).2.1
    unfold sanitize_model_name
    rw [if_pos hv, pyStrip_eq_self (fun c hc => inClass_not_pySpace c (hall c hc))]
  refine ⟨hmain, ?_, ?_⟩
  · rintro ⟨c, hcl, hcs⟩
    have hv : validate_model_name l = false := by
      cases hv : validate_model_name l
      · rfl
      · have hall := ((validate_model_name_iff l).mp hv).2.1
        have hcontra := inClass_not_pySpace c (hall c hcl)
        rw [hcs] at hcontra
        exact absurd hcontra (by simp)
    simp [sanitize_model_name, hv]
  · intro r hr
    cases hv : validate_model_name l
    · simp [sanitize_model_name, hv] at hr
    · have hok := hmain hv
      rw [hok] at hr
      injection hr with hlr
      rw [← hlr]
      exact hok

theorem sanitize_model_name_identity_witness :
    sanitize_model_name (String.toList ("llama3")) =
      Except.ok (String.toList ("llama3")) ∧
    sanitize_model_name (' ' :: String.toList ("llama3")) = Except.error () := by
  constructor
  · exact (sanitize_model_name_identity (String.toList ("llama3"))).1 (by decide)
  · exact (sanitize_model_name_identity (' ' :: String.toList ("llama3"))).2.1
      ⟨' ', by simp, by decide⟩

/-! Health-monitor lemmas. -/

theorem responsive_match_eq (http : Nat → Except PyError Nat) :
    is_ollama_responsive true http =
      (match retryFrom (check_health http) 2
          (orDefaultQ (some (1 / 2 : ℚ)) configRetryDelay)
          (orDefaultQ none configRetryBackoff) 0 2 with
       | ⟨Except.ok b, n, _⟩ => (⟨b, n⟩ : ResponsiveResult)
       | ⟨Except.error _, n, _⟩ => ⟨false, n⟩) := rfl

/-- C6: `is_ollama_responsive` returns true iff the port check reports
listening and an HTTP GET to the liveness endpoint returns status 200 within
the short internal retry (first attempt, or second attempt after a
recoverable failure of the first); at most two HTTP requests are made, and
whenever the port is not listening it returns false without performing any
HTTP request. -/
theorem is_ollama_responsive_spec (running : Bool) (http : Nat → Except PyError Nat) :
    ((is_ollama_responsive running http).responsive = true ↔
      running = true ∧
        (http 0 = Except.ok 200 ∨
         (∃ e, http 0 = Except.error e ∧ isRecoverable e = true ∧
               http 1 = Except.ok 200))) ∧
    (running = false → is_ollama_responsive running http = ⟨false, 0⟩) ∧
    (is_ollama_responsive running http).httpCalls ≤ 2 := by
  cases running with
  | false =>
    refine ⟨?_, fun _ => rfl, ?_⟩
    · simp [is_ollama_responsive]
    · simp [is_ollama_responsive]
  | true =>
    rw [responsive_match_eq http]
    generalize orDefaultQ (some (1 / 2 : ℚ)) configRetryDelay = d
    generalize orDefaultQ (none : Option ℚ) configRetryBackoff = b
    cases hop0 : http 0 with
    | ok s =>
      have hopv : check_health http 0 = Except.ok (s == 200) := by
        simp [check_health, hop0, Except.map]
      have hcomp : retryFrom (check_health http) 2 d b 0 2 =
          ⟨Except.ok (s == 200), 1, []⟩ :=
        retryFrom_step_ok (check_health http) 2 d b 0 1 (s == 200) hopv
      rw [hcomp]
      refine ⟨?_, fun h => absurd h (by decide), by simp⟩
      simp [hop0, beq_iff_eq]
    | error e =>
      have hopv : check_health http 0 = Except.error e := by
        simp [check_health, hop0, Except.map]
      cases hrec : isRecoverable e with
      | false =>
        have hcomp : retryFrom (check_health http) 2 d b 0 2 =
            ⟨Except.error e, 1, []⟩ :=
          retryFrom_step_unrec (check_health http) 2 d b 0 1 e hopv hrec
        rw [hcomp]
        refine ⟨?_, fun h => absurd h (by decide), by simp⟩
        simp [hop0, hrec]
      | true =>
        cases hop1 : http 1 with
        | ok s =>
          have hopv1 : check_health http 1 = Except.ok (s == 200) := by
            simp [check_health, hop1, Except.map]
          have h11 : retryFrom (check_health http) 2 d b 1 1 =
              ⟨Except.ok (s == 200), 1, []⟩ :=
            retryFrom_step_ok (check_health http) 2 d b 1 0 (s == 200) hopv1
          have h02 : retryFrom (check_health http) 2 d b 0 2 =
              ⟨Except.ok (s == 200), 2, [d * b ^ 0]⟩ := by
            have hstep := retryFrom_step_retry (check_health http) 2 d b 0 1 e
              hopv hrec (by decide)
            rw [h11] at hstep
            simpa using hstep
          rw [h02]
          refine ⟨?_, fun h => absurd h (by decide), by simp⟩
          simp [hop0, hop1, hrec, beq_iff_eq]
        | error e2 =>
          have hopv1 : check_health http 1 = Except.error e2 := by
            simp [check_health, hop1, Except.map]
          have h11 : retryFrom (check_health http) 2 d b 1 1 =
              ⟨Except.error e2, 1, []⟩ := by
            cases hrec2 : isRecoverable e2 with
            | true => exact retryFrom_step_last (check_health http) 2 d b 1 0 e2 hopv1 hrec2 rfl
            | false => exact retryFrom_step_unrec (check_health http) 2 d b 1 0 e2 hopv1 hrec2
          have h02 : retryFrom (check_health http) 2 d b 0 2 =
              ⟨Except.error e2, 2, [d * b ^ 0]⟩ := by
            have hstep := retryFrom_step_retry (check_health http) 2 d b 0 1 e
              hopv hrec (by decide)
            rw [h11] at hstep
            simpa using hstep
          rw [h02]
          refine ⟨?_, fun h => absurd h (by decide), by simp⟩
          simp [hop0, hop1, hrec]

theorem is_ollama_responsive_spec_witness :
    (is_ollama_responsive true (fun _ => Except.ok 200)).responsive = true ∧
    is_ollama_responsive false (fun _ => Except.ok 200) = ⟨false, 0⟩ := by
  constructor
  · exact (is_ollama_responsive_spec true (fun _ => Except.ok 200)).1.mpr
      ⟨rfl, Or.inl rfl⟩
  · exact (is_ollama_responsive_spec false (fun _ => Except.ok 200)).2.1 rfl

/-! Service-launcher lemmas. -/

theorem bind_congr_fun {β : Type} {f g : Nat → List β} (l : List Nat)
    (h : ∀ x ∈ l, f x = g x) : l.flatMap f = l.flatMap g := by
  induction l with
  | nil => rfl
  | cons a t ih =>
    rw [List.flatMap_cons, List.flatMap_cons, h a (List.mem_cons_self a t),
      ih (fun x hx => h x (List.mem_cons_of_mem a hx))]

theorem bindShift {β : Type} (g : Nat → List β) (k : Nat) :
    (List.range (k + 1)).flatMap g = g 0 ++ (List.range k).flatMap (fun i => g (i + 1)) := by
  rw [List.range_succ_eq_map, List.flatMap_cons]
  refine congrArg (g 0 ++ ·) ?_
  induction (List.range k) with
  | nil => rfl
  | cons a t ih => simp [List.flatMap_cons, ih]

theorem startOllamaPollLoop_firstTrue (responsive : Nat → Bool) :
    ∀ (k start fuel : Nat), k < fuel →
      (∀ j, j < k → responsive (start + j) = false) →
      responsive (start + k) = true →
      startOllamaPollLoop responsive start fuel =
        (List.range k).flatMap (fun i =>
          [OllamaAction.pollResponsive (start + i), OllamaAction.sleepSec 1]) ++
        [OllamaAction.pollResponsive (start + k),
         OllamaAction.message ("Ollama is now ready.") ("info")] := by
  intro k
  induction k with
  | zero =>
    intro start fuel hk _ hres
    obtain ⟨f, rfl⟩ : ∃ f, fuel = f + 1 := ⟨fuel - 1, by omega⟩
    rw [Nat.add_zero] at hres
    simp [startOllamaPollLoop, hres]
  | succ k ih =>
    intro start fuel hk hbefore hres
    obtain ⟨f, rfl⟩ : ∃ f, fuel = f + 1 := ⟨fuel - 1, by omega⟩
    have h0 : responsive start = false := by
      simpa using hbefore 0 (Nat.succ_pos k)
    have hrecur := ih (start + 1) f (by omega)
      (fun j hj => by
        have hb := hbefore (j + 1) (by omega)
        have harith : start + 1 + j = start + (j + 1) := by omega
        rw [harith]
        exact hb)
      (by
        have harith : start + 1 + k = start + (k + 1) := by omega
        rw [harith]
        exact hres)
    simp only [startOllamaPollLoop, h0, Bool.false_eq_true, if_false, hrecur]
    rw [bindShift (fun i =>
      [OllamaAction.pollResponsive (start + i), OllamaAction.sleepSec 1]) k]
    simp only [Nat.add_zero, List.cons_append, List.nil_append, List.append_assoc]
    refine congrArg (OllamaAction.pollResponsive start :: ·) ?_
    refine congrArg (OllamaAction.sleepSec 1 :: ·) ?_
    have hc : (List.range k).flatMap (fun i =>
        [OllamaAction.pollResponsive (start + 1 + i), OllamaAction.sleepSec 1]) =
        (List.range k).flatMap (fun i =>
        [OllamaAction.pollResponsive (start + (i + 1)), OllamaAction.sleepSec 1]) := by
      apply bind_congr_fun
      intro x _
      have harith : start + 1 + x = start + (x + 1) := by omega
      rw [harith]
    rw [hc]
    have harith2 : start + 1 + k = start + (k + 1) := by omega
    rw [harith2]

theorem startOllamaPollLoop_neverTrue (responsive : Nat → Bool) :
    ∀ (fuel start : Nat),
      (∀ j, j < fuel → responsive (start + j) = false) →
      startOllamaPollLoop responsive start fuel =
        (List.range fuel).flatMap (fun i =>
          [OllamaAction.pollResponsive (start + i), OllamaAction.sleepSec 1]) ++
        [OllamaAction.message
          ("Ollama started but may not be fully responsive yet.") ("warn")] := by
  intro fuel
  induction fuel with
  | zero =>
    intro start _
    simp [startOllamaPollLoop]
  | succ f ih =>
    intro start hall
    have h0 : responsive start = false := by
      simpa using hall 0 (Nat.succ_pos f)
    have hrecur := ih (start + 1) (fun j hj => by
      have hb := hall (j + 1) (by omega)
      have harith : start + 1 + j = start + (j + 1) := by omega
      rw [harith]
      exact hb)
    simp only [startOllamaPollLoop, h0, Bool.false_eq_true, if_false, hrecur]
    rw [bindShift (fun i =>
      [OllamaAction.pollResponsive (start + i), OllamaAction.sleepSec 1]) f]
    simp only [Nat.add_zero, List.cons_append, List.nil_append, List.append_assoc]
    refine congrArg (OllamaAction.pollResponsive start :: ·) ?_
    refine congrArg (OllamaAction.sleepSec 1 :: ·) ?_
    apply congrArg (· ++ _)
    apply bind_congr_fun
    intro x _
    have harith : start + 1 + x = start + (x + 1) := by omega
    rw [harith]

/-- C5: `start_ollama` performs no action at all when the server is already
listening; otherwise it announces the start, spawns the server process, and
polls `is_ollama_responsive` at most 30 times at one-second intervals,
returning immediately after the first responsive poll (with a readiness
message and no further sleeps) and otherwise returning after the window
elapses with a non-fatal warning. -/
theorem start_ollama_spec (running : Bool) (responsive : Nat → Bool) :
    (running = true → start_ollama running responsive = []) ∧
    (running = false →
      ((∀ k, k < ollama_startup_wait → (∀ j, j < k → responsive j = false) →
          responsive k = true →
          start_ollama running responsive =
            OllamaAction.message ("Starting Ollama on 0.0.0.0...") ("info") ::
            OllamaAction.spawnServe ::
            ((List.range k).flatMap (fun i =>
              [OllamaAction.pollResponsive i, OllamaAction.sleepSec 1]) ++
             [OllamaAction.pollResponsive k,
              OllamaAction.message ("Ollama is now ready.") ("info")])) ∧
       ((∀ j, j < ollama_startup_wait → responsive j = false) →
          start_ollama running responsive =
            OllamaAction.message ("Starting Ollama on 0.0.0.0...") ("info") ::
            OllamaAction.spawnServe ::
            ((List.range ollama_startup_wait).flatMap (fun i =>
              [OllamaAction.pollResponsive i, OllamaAction.sleepSec 1]) ++
             [OllamaAction.message
               ("Ollama started but may not be fully responsive yet.") ("warn")])))) := by
  constructor
  · intro h
    subst h
    rfl
  · intro h
    subst h
    constructor
    · intro k hk hbefore hres
      have hl := startOllamaPollLoop_firstTrue responsive k 0 ollama_startup_wait hk
        (by intro j hj; simpa using hbefore j hj) (by simpa using hres)
      show OllamaAction.message ("Starting Ollama on 0.0.0.0...") ("info") ::
        OllamaAction.spawnServe ::
        startOllamaPollLoop responsive 0 ollama_startup_wait = _
      rw [hl]
      simp
    · intro hall
      have hl := startOllamaPollLoop_neverTrue responsive ollama_startup_wait 0
        (by intro j hj; simpa using hall j hj)
      show OllamaAction.message ("Starting Ollama on 0.0.0.0...") ("info") ::
        OllamaAction.spawnServe ::
        startOllamaPollLoop responsive 0 ollama_startup_wait = _
      rw [hl]
      simp

theorem start_ollama_spec_witness :
    start_ollama true (fun i => i == 2) = [] ∧
    start_ollama false (fun i => i == 2) =
      [OllamaAction.message ("Starting Ollama on 0.0.0.0...") ("info"),
       OllamaAction.spawnServe,
       OllamaAction.pollResponsive 0, OllamaAction.sleepSec 1,
       OllamaAction.pollResponsive 1, OllamaAction.sleepSec 1,
       OllamaAction.pollResponsive 2,
       OllamaAction.message ("Ollama is now ready.") ("info")] := by
  constructor
  · exact (start_ollama_spec true (fun i => i == 2)).1 rfl
  · have h := ((start_ollama_spec false (fun i => i == 2)).2 rfl).1 2
      (by decide) (by decide) (by decide)
    rw [h]
    rfl

/-! Tunnel-supervisor lemmas. -/

theorem awaitTunnelUrl_fst_firstMatch (verbose : Bool) (raw : Nat → List Char) :
    ∀ (k start fuel : Nat) (u : List Char), k < fuel →
      (∀ j, j < k → reSearchTunnelUrl (pyStrip (raw (start + j))) = none) →
      reSearchTunnelUrl (pyStrip (raw (start + k))) = some u →
      (awaitTunnelUrl verbose raw start fuel).1 = some u := by
  intro k
  induction k with
  | zero =>
    intro start fuel u hk _ hmatch
    obtain ⟨f, rfl⟩ : ∃ f, fuel = f + 1 := ⟨fuel - 1, by omega⟩
    rw [Nat.add_zero] at hmatch
    by_cases hemp : (pyStrip (raw start)).isEmpty = true
    · rw [List.isEmpty_iff.mp hemp] at hmatch
      exact Option.noConfusion hmatch
    · simp [awaitTunnelUrl, hemp, hmatch]
  | succ k ih =>
    intro start fuel u hk hbefore hmatch
    obtain ⟨f, rfl⟩ : ∃ f, fuel = f + 1 := ⟨fuel - 1, by omega⟩
    have hnext : (awaitTunnelUrl verbose raw (start + 1) f).1 = some u := by
      refine ih (start + 1) f u (by omega) ?_ ?_
      · intro j hj
        have hb := hbefore (j + 1) (by omega)
        have harith : start + 1 + j = start + (j + 1) := by omega
        rw [harith]
        exact hb
      · have harith : start + 1 + k = start + (k + 1) := by omega
        rw [harith]
        exact hmatch
    by_cases hemp : (pyStrip (raw start)).isEmpty = true
    · simp only [awaitTunnelUrl, hemp, if_true]
      exact hnext
    · have h0 : reSearchTunnelUrl (pyStrip (raw start)) = none := by
        simpa using hbefore 0 (Nat.succ_pos k)
      rcases hp : awaitTunnelUrl verbose raw (start + 1) f with ⟨r, ech⟩
      rw [hp] at hnext
      simp only [awaitTunnelUrl, hemp, h0, hp]
      simpa using hnext

theorem awaitTunnelUrl_fst_noMatch (verbose : Bool) (raw : Nat → List Char) :
    ∀ (fuel start : Nat),
      (∀ j, j < fuel → reSearchTunnelUrl (pyStrip (raw (start + j))) = none) →
      (awaitTunnelUrl verbose raw start fuel).1 = none := by
  intro fuel
  induction fuel with
  | zero =>
    intro start _
    rfl
  | succ f ih =>
    intro start hall
    have h0 : reSearchTunnelUrl (pyStrip (raw start)) = none := by
      simpa using hall 0 (Nat.succ_pos f)
    have hnext : (awaitTunnelUrl verbose raw (start + 1) f).1 = none := by
      refine ih (start + 1) ?_
      intro j hj
      have hb := hall (j + 1) (by omega)
      have harith : start + 1 + j = start + (j + 1) := by omega
      rw [harith]
      exact hb
    by_cases hemp : (pyStrip (raw start)).isEmpty = true
    · simp only [awaitTunnelUrl, hemp, if_true]
      exact hnext
    · rcases hp : awaitTunnelUrl verbose raw (start + 1) f with ⟨r, ech⟩
      rw [hp] at hnext
      simp only [awaitTunnelUrl, hemp, h0, hp]
      simpa using hnext

theorem awaitTunnelUrl_fst_verbose_indep (raw : Nat → List Char) :
    ∀ (fuel start : Nat),
      (awaitTunnelUrl true raw start fuel).1 = (awaitTunnelUrl false raw start fuel).1 := by
  intro fuel
  induction fuel with
  | zero => intro start; rfl
  | succ f ih =>
    intro start
    by_cases hemp : (pyStrip (raw start)).isEmpty = true
    · simp only [awaitTunnelUrl, hemp, if_true]
      exact ih (start + 1)
    · cases hm : reSearchTunnelUrl (pyStrip (raw start)) with
      | some u => simp [awaitTunnelUrl, hemp, hm]
      | none =>
        rcases hp1 : awaitTunnelUrl true raw (start + 1) f with ⟨r1, e1⟩
        rcases hp2 : awaitTunnelUrl false raw (start + 1) f with ⟨r2, e2⟩
        have heq := ih (start + 1)
        rw [hp1, hp2] at heq
        simp only at heq
        simp [awaitTunnelUrl, hemp, hm, hp1, hp2, heq]

/-- C4: if some line within the bounded wait window contains a substring
matching the tunnel-URL pattern, `start_temp_tunnel` records the first such
matched URL and reports the `Active` state with it, independently of the
verbosity flag; if no line matches for the full window, it reports the
`Stopped` state with the failure message and no URL is surfaced. -/
theorem start_temp_tunnel_spec (verbose : Bool) (raw : Nat → List Char) :
    (∀ k u, k < tunnel_url_wait →
      (∀ j, j < k → reSearchTunnelUrl (pyStrip (raw j)) = none) →
      reSearchTunnelUrl (pyStrip (raw k)) = some u →
      (start_temp_tunnel verbose raw).1 = TunnelState.Active u) ∧
    ((∀ j, j < tunnel_url_wait → reSearchTunnelUrl (pyStrip (raw j)) = none) →
      (start_temp_tunnel verbose raw).1 =
        TunnelState.Stopped ("Failed to obtain tunnel URL")) ∧
    (start_temp_tunnel true raw).1 = (start_temp_tunnel false raw).1 := by
  refine ⟨?_, ?_, ?_⟩
  · intro k u hk hbefore hmatch
    have h1 := awaitTunnelUrl_fst_firstMatch verbose raw k 0 tunnel_url_wait u hk
      (by intro j hj; simpa using hbefore j hj) (by simpa using hmatch)
    unfold start_temp_tunnel
    rcases hp : awaitTunnelUrl verbose raw 0 tunnel_url_wait with ⟨r, ech⟩
    rw [hp] at h1
    simp only at h1
    rw [h1]
  · intro hall
    have h1 := awaitTunnelUrl_fst_noMatch verbose raw tunnel_url_wait 0
      (by intro j hj; simpa using hall j hj)
    unfold start_temp_tunnel
    rcases hp : awaitTunnelUrl verbose raw 0 tunnel_url_wait with ⟨r, ech⟩
    rw [hp] at h1
    simp only at h1
    rw [h1]
  · have heq := awaitTunnelUrl_fst_verbose_indep raw tunnel_url_wait 0
    unfold start_temp_tunnel
    rcases hp1 : awaitTunnelUrl true raw 0 tunnel_url_wait with ⟨r1, e1⟩
    rcases hp2 : awaitTunnelUrl false raw 0 tunnel_url_wait with ⟨r2, e2⟩
    rw [hp1, hp2] at heq
    simp only at heq
    subst heq
    cases r1 <;> rfl

theorem start_temp_tunnel_spec_witness :
    (start_temp_tunnel false
      (fun i => if i = 0
        then String.toList ("INF https://abc123.trycloudflare.com")
        else [])).1 =
      TunnelState.Active (String.toList ("https://abc123.trycloudflare.com")) := by
  exact (start_temp_tunnel_spec false
    (fun i => if i = 0
      then String.toList ("INF https://abc123.trycloudflare.com")
      else [])).1 0 (String.toList ("https://abc123.trycloudflare.com"))
    (by decide)
    (fun j hj => absurd hj (Nat.not_lt_zero j))
    (by decide)

/-! Pull-driver and installer-config lemmas. -/

/-- C7: for the pull-output stream of twelve `pulling manifest` lines
followed by `verifying sha256 digest` and `success`, the non-indicator
lines printed by the de-duplication loop are exactly those two lines, each
printed once, and the manifest progress-indicator line is terminated with a
newline before the first dissimilar line is printed. -/
theorem pull_model_dedup_spec :
    pull_model_output
      (List.replicate 12 manifestLine ++
       [String.toList ("verifying sha256 digest"), String.toList ("success")]) =
      [PullEvent.progress (indicatorText 1),
       PullEvent.progress (indicatorText 1),
       PullEvent.progress (indicatorText 2),
       PullEvent.newline,
       PullEvent.outLine (String.toList ("verifying sha256 digest")),
       PullEvent.outLine (String.toList ("success"))] ∧
    printedOutLines
      (pull_model_output
        (List.replicate 12 manifestLine ++
         [String.toList ("verifying sha256 digest"), String.toList ("success")])) =
      [String.toList ("verifying sha256 digest"), String.toList ("success")] :=
  ⟨by decide, by decide⟩

/-- C9 (counterexample to atomicity): an execution of the configuration
write that stops after the first of the four `f.write` calls leaves
config.yml neither absent nor with the complete three-key content — a
partially-written file remains. -/
theorem setup_cloudflared_config_not_atomic :
    ¬ (setup_cloudflared_config_file 1 = ConfigFileState.absent ∨
       setup_cloudflared_config_file 1 =
         ConfigFileState.content fullCloudflaredConfig) := by
  decide

/-- C9 (amended): the config.yml write of `_setup_cloudflared_config` is
sequential, not atomic: an execution that stops after `j < 4` completed
writes leaves a file whose content is the concatenation of the first `j`
lines — a proper prefix of the complete three-key content — and only a
fully completed execution (all four writes) leaves exactly the complete
content. -/
theorem setup_cloudflared_config_sequential (j : Nat) :
    (j < 4 → ∃ s, setup_cloudflared_config_file j = ConfigFileState.content s ∧
      s <+: fullCloudflaredConfig ∧ s ≠ fullCloudflaredConfig) ∧
    (4 ≤ j → setup_cloudflared_config_file j =
      ConfigFileState.content fullCloudflaredConfig) := by
  constructor
  · intro hj
    refine ⟨(cloudflaredConfigLines.take j).flatten, rfl, ?_, ?_⟩
    · refine ⟨(cloudflaredConfigLines.drop j).flatten, ?_⟩
      rw [← List.flatten_append, List.take_append_drop]
      rfl
    · interval_cases j <;> decide
  · intro hj
    have hlen : cloudflaredConfigLines.take j = cloudflaredConfigLines := by
      apply List.take_of_length_le
      have : cloudflaredConfigLines.length = 4 := by decide
      omega
    unfold setup_cloudflared_config_file fullCloudflaredConfig
    rw [hlen]

theorem setup_cloudflared_config_sequential_witness :
    ∃ s, setup_cloudflared_config_file 1 = ConfigFileState.content s ∧
      s <+: fullCloudflaredConfig ∧ s ≠ fullCloudflaredConfig :=
  (setup_cloudflared_config_sequential 1).1 (by decide)

end Cloudlamma
